import Mathlib

/-!
Verification development for the dental voice-bot repository.

The Python modules under `app/` and `main.py` are shallowly embedded here:
pure string-processing functions become Lean functions on `String` /
`List Char`; the CSV-backed schedule table becomes a `List SlotRow` passed
explicitly (load/save at an operation boundary becomes returning the new
table); the stateful call-lifecycle code becomes explicit state passing.
Python semantics (regex scanning, `str.strip`, `%` formatting, dict
insertion order) are reproduced by hand and noted at each definition.
-/

set_option maxRecDepth 4000

namespace Bot

/-! ## Python string primitives shared by all modules -/

/-- Python whitespace test used by `str.strip`, `str.split` and regex wordclass.
The inputs in scope are ASCII, where Lean `Char.isWhitespace` agrees. -/
def isWs (c : Char) : Bool := c.isWhitespace

/-- Regex class `[a-z]`. -/
def isLowerAlpha (c : Char) : Bool := decide (Char.ofNat 97 ≤ c) && decide (c ≤ Char.ofNat 122)

/-- Regex class `\w` restricted to ASCII: `[a-zA-Z0-9_]`. -/
def isWordC (c : Char) : Bool := c.isAlphanum || c = '_'

/-- Python `str.lower` (ASCII inputs). -/
def pyLower (s : String) : String := ⟨s.data.map Char.toLower⟩

/-- Python `str.strip` with no arguments: drop whitespace from both ends. -/
def pyStrip (s : String) : String :=
  ⟨((s.data.dropWhile isWs).reverse.dropWhile isWs).reverse⟩

/-- Python `needle in hay` for strings: contiguous-substring test. -/
def listInfix (needle hay : List Char) : Bool :=
  hay.tails.any (fun t => needle.isPrefixOf t)

/-- Python `needle in hay` lifted to `String`. -/
def pyIn (hay needle : String) : Bool := listInfix needle.data hay.data

/-- Value of a digit string (callers guarantee every char is a digit). -/
def digitsToNat (cs : List Char) : Nat :=
  cs.foldl (fun n c => n * 10 + (c.toNat - 48)) 0

/-- Python `f"{n:02d}"` for a natural number. -/
def pad2 (n : Nat) : String :=
  if n < 10 then "0" ++ toString n else toString n

/-- Split a char list into the maximal runs of characters satisfying `p`,
dropping separators: the semantics of Python `re.split` on the complement
class, or of `str.split()` when `p` is non-whitespace. -/
def runsBy (p : Char → Bool) : List Char → List Char → List (List Char)
  | [], acc => if acc.isEmpty then [] else [acc.reverse]
  | c :: rest, acc =>
      if p c then runsBy p rest (c :: acc)
      else if acc.isEmpty then runsBy p rest []
      else acc.reverse :: runsBy p rest []

/-- Python `str.split()` (split on whitespace runs, dropping empties). -/
def pySplit (s : String) : List String :=
  (runsBy (fun c => !isWs c) s.data []).map (fun cs => ⟨cs⟩)

/-! ## app/schedule.py — the Scheduling Engine

`SimpleDataFrame` holds an ordered list of row dicts; the schedule rows all
carry the eight `DEFAULT_COLUMNS` as strings.  `load_schedule`/`save_schedule`
read and write the backing CSV; here the stored table is passed in and the
(possibly updated) stored table is returned. -/

/-- One row of `data/schedule.csv` (the eight DEFAULT_COLUMNS). -/
structure SlotRow where
  date : String
  weekday : String
  start_time : String
  end_time : String
  status : String
  patient_name : String
  appointment_type : String
  notes : String
deriving Repr, DecidableEq

/-- The boolean mask `(df["date"] == date) & (df["start_time"] == start_time)`
evaluated at one row. -/
def slotMatches (date start_time : String) (r : SlotRow) : Bool :=
  r.date = date && r.start_time = start_time

/-- The `avail` rows computed inside `list_available`: the status filter
followed by the optional date filter. -/
def availRows (df : List SlotRow) (date : Option String) : List SlotRow :=
  match date with
  | some d =>
      (df.filter (fun r : SlotRow => r.status == "Available")).filter
        (fun r : SlotRow => r.date == d)
  | none => df.filter (fun r : SlotRow => r.status == "Available")

/-- `schedule.list_available(date?, limit)`: status filter, optional date
filter, `head(limit)`, returned as records.  The two `empty` early returns of
the source are kept. -/
def list_available (df : List SlotRow) (date : Option String) (limit : Nat) :
    List SlotRow :=
  if df.isEmpty then []
  else if (availRows df date).isEmpty then []
  else (availRows df date).take limit

/-- `schedule.find_next_available`: first Available row in storage order
(`avail.iloc[0]` after the two `empty` checks). -/
def find_next_available (df : List SlotRow) : Option SlotRow :=
  if df.isEmpty then none
  else (df.filter (fun r : SlotRow => r.status == "Available")).head?

/-- The row update `df.loc[mask, c] = v` performed by `reserve_slot` on every
row the mask selects. -/
def bookRow (name appt_type : String) (r : SlotRow) : SlotRow :=
  { r with status := "Booked", patient_name := name, appointment_type := appt_type }

/-- `schedule.reserve_slot(date, start_time, name, appt_type)`.  Returns the
boolean result together with the stored table after the call: the source
returns `False` before `save_schedule` on the two failure paths (table
untouched) and persists the mutated table on success.  `mask.any()` is
`find? ≠ none`; `df.loc[mask, "status"].iloc[0]` is the first matching row's
status.  The side append to `bookings.csv` is not modelled (no claim reads
it). -/
def reserve_slot (df : List SlotRow) (date start_time name appt_type : String) :
    Bool × List SlotRow :=
  match df.find? (slotMatches date start_time) with
  | none => (false, df)
  | some r =>
      if r.status ≠ "Available" then (false, df)
      else
        (true, df.map (fun row =>
          if slotMatches date start_time row then bookRow name appt_type row else row))

/-! ## app/nlp.py — the Temporal Parser

Regex semantics are reproduced by hand at each use site: `re.search` scans
left to right and yields the first position where the pattern matches
(greedy quantifiers with backtracking); `re.finditer` yields the
non-overlapping matches in order, resuming after each match; `\b` holds
between a word char (`[a-zA-Z0-9_]`) and a non-word char, string edges
counting as non-word. -/

/-- Regex `\b` between an optional previous char and an optional next char. -/
def isBoundary (prev next : Option Char) : Bool :=
  ((prev.map isWordC).getD false) != ((next.map isWordC).getD false)

/-- Search for `lit` followed by `(\d{1,2})` (greedy), scanning every start
position like `re.search`: implements the patterns `half past (\d{1,2})`,
`quarter past (\d{1,2})` and `quarter to (\d{1,2})` with `lit` ending in the
literal space of the pattern. -/
def findLitNum (lit : List Char) : List Char → Option Nat
  | [] => none
  | cs@(_ :: rest) =>
      (if lit.isPrefixOf cs then
        match cs.drop lit.length with
        | d1 :: d2 :: _ =>
            if d1.isDigit then
              some (if d2.isDigit then digitsToNat [d1, d2] else digitsToNat [d1])
            else none
        | [d1] => if d1.isDigit then some (digitsToNat [d1]) else none
        | [] => none
      else none) <|> findLitNum lit rest

/-- The alternatives of `(am|pm)?\b` at one position: try `am`, then `pm`,
then the empty alternative, each followed by the `\b` test.  `prev` is the
char just before this position.  Returns `some (some false)` for am,
`some (some true)` for pm, `some none` for the empty alternative. -/
def ampmAlt (prev : Char) (rest : List Char) : Option (Option Bool) :=
  (match rest with
   | 'a' :: 'm' :: r => if isBoundary (some 'm') r.head? then some (some false) else none
   | _ => none) <|>
  (match rest with
   | 'p' :: 'm' :: r => if isBoundary (some 'm') r.head? then some (some true) else none
   | _ => none) <|>
  (if isBoundary (some prev) rest.head? then some (none : Option Bool) else none)

/-- Backtracking over `\s*` in `\s*(am|pm)?\b`: the greedy count of consumed
whitespace chars is tried first, then shorter counts. -/
def wsAmpmLoop (prev : Char) (rest : List Char) : Nat → Option (Option Bool)
  | 0 => ampmAlt prev rest
  | k + 1 =>
      match ampmAlt ((rest.get? k).getD ' ') (rest.drop (k + 1)) with
      | some v => some v
      | none => wsAmpmLoop prev rest k

/-- Match `\s*(am|pm)?\b` starting after the char `prev`. -/
def wsAmpm (prev : Char) (rest : List Char) : Option (Option Bool) :=
  wsAmpmLoop prev rest (rest.takeWhile isWs).length

/-- Match `(?::(\d{2}))?\s*(am|pm)?\b` after the hour digits (the optional
colon group is greedy, so it is tried before its empty alternative).
`lastChar` is the last hour digit.  Returns the minute group and am/pm. -/
def colonMinTail (lastChar : Char) (rest : List Char) : Option (Option Nat × Option Bool) :=
  (match rest with
   | ':' :: d1 :: d2 :: r =>
       if d1.isDigit && d2.isDigit then
         (wsAmpm d2 r).map (fun ap => (some (digitsToNat [d1, d2]), ap))
       else none
   | _ => none) <|>
  (wsAmpm lastChar rest).map (fun ap => ((none : Option Nat), ap))

/-- `re.search(r"\b(\d{1,2})(?::(\d{2}))?\s*(am|pm)?\b", ...)`: scan for the
first matching position; at a position the two-digit hour is tried before the
one-digit hour.  Returns `(hour, minute?, ampm?)` of the first match. -/
def genSearch (prev : Option Char) : List Char → Option (Nat × Option Nat × Option Bool)
  | [] => none
  | c :: rest =>
      (if c.isDigit && isBoundary prev (some c) then
        (match rest with
         | d2 :: rest2 =>
             if d2.isDigit then
               (colonMinTail d2 rest2).map (fun p => (digitsToNat [c, d2], p.1, p.2))
             else none
         | [] => none) <|>
        (colonMinTail c rest).map (fun p => (digitsToNat [c], p.1, p.2))
      else none) <|> genSearch (some c) rest

/-- `nlp.normalize_time`.  The "half past"/"quarter past"/"quarter to"
branches fall through to the generic clock regex when their inner regex does
not match or (for the two "past" forms) the hour is out of range, exactly as
the source's guarded returns do. -/
def normalize_time (text : String) : Option String :=
  if text = "" then none
  else
    let lowered := pyStrip (pyLower text)
    let lowered : String := ⟨lowered.data.filter (fun c => c ≠ '.')⟩
    let halfRes : Option String :=
      if pyIn lowered "half past" then
        match findLitNum ("half past ".data) lowered.data with
        | some h => if h < 24 then some (pad2 h ++ ":30") else none
        | none => none
      else none
    match halfRes with
    | some r => some r
    | none =>
    let qpRes : Option String :=
      if pyIn lowered "quarter past" then
        match findLitNum ("quarter past ".data) lowered.data with
        | some h => if h < 24 then some (pad2 h ++ ":15") else none
        | none => none
      else none
    match qpRes with
    | some r => some r
    | none =>
    let qtRes : Option String :=
      if pyIn lowered "quarter to" then
        match findLitNum ("quarter to ".data) lowered.data with
        | some h => some (pad2 (if h = 0 then 23 else h - 1) ++ ":45")
        | none => none
      else none
    match qtRes with
    | some r => some r
    | none =>
    match genSearch none lowered.data with
    | none => none
    | some (h0, m0, ap) =>
        let minute := m0.getD 0
        let hour := match ap with
          | some true => if h0 < 12 then h0 + 12 else h0
          | some false => if h0 = 12 then 0 else h0
          | none => h0
        if hour < 24 && minute < 60 then some (pad2 hour ++ ":" ++ pad2 minute)
        else none

/-- Split at the first occurrence of `sep`, like Python `split(sep, 1)` when
it yields two parts; `none` when `sep` is absent (where the source's tuple
unpacking raises and the `except` branch runs). -/
def splitFirst (sep : Char) : List Char → Option (List Char × List Char)
  | [] => none
  | c :: rest =>
      if c = sep then some ([], rest)
      else (splitFirst sep rest).map (fun p => (c :: p.1, p.2))

/-- Python `int(str)`: optional surrounding whitespace, optional sign, digits
(digit-group underscores are not modelled; no caller passes them). -/
def pyIntOfStr (s : String) : Option Int :=
  match (pyStrip s).data with
  | '-' :: rest =>
      if !rest.isEmpty && rest.all Char.isDigit then some (-(digitsToNat rest : Int)) else none
  | '+' :: rest =>
      if !rest.isEmpty && rest.all Char.isDigit then some ((digitsToNat rest : Int)) else none
  | t => if !t.isEmpty && t.all Char.isDigit then some ((digitsToNat t : Int)) else none

/-- Python `f"{n:02d}"` on an int (a negative value keeps its sign and is not
padded to width 2 beyond the sign, as in CPython). -/
def pyFmtInt02 (n : Int) : String :=
  if 0 ≤ n && n < 10 then "0" ++ toString n else toString n

/-- `nlp.hhmm_to_12h`: split on the first colon, parse both parts as ints
(any failure returns the input unchanged), then render the 12-hour form,
dropping `:00` minutes. -/
def hhmm_to_12h (hhmm : String) : String :=
  match splitFirst ':' hhmm.data with
  | none => hhmm
  | some (pre, post) =>
      match pyIntOfStr ⟨pre⟩, pyIntOfStr ⟨post⟩ with
      | some hour, some minute =>
          let suffix := if hour < 12 then "am" else "pm"
          let dh := hour.emod 12
          let dh := if dh = 0 then 12 else dh
          if minute = 0 then toString dh ++ suffix
          else toString dh ++ ":" ++ pyFmtInt02 minute ++ suffix
      | _, _ => hhmm

/-! ### Day phrases

Calendar dates are modelled as absolute day numbers with day 0 a Monday, so
`weekday(n) = n % 7` with Monday = 0 exactly as Python `date.weekday()`;
`timedelta` addition is `Nat` addition.  The final `strftime("%Y-%m-%d")` is
a bijection from dates to strings and is not modelled. -/

/-- `re.search(rf"\b{name[:3]}\w*\b", lowered)`: some maximal `\w` run of the
text starts with the three-letter prefix `name[:3]`. -/
def wordStartsWith (pre cs : List Char) : Bool :=
  (runsBy isWordC cs []).any (fun w => pre.isPrefixOf w)

/-- The `for name, idx in WEEKDAYS.items()` loop of `parse_date_phrase`: the
dict iterates Monday = 0 .. Sunday = 6 in insertion order, returning the
first weekday whose three-letter prefix pattern matches. -/
def weekdayMatch (cs : List Char) : Option Nat :=
  if wordStartsWith "mon".data cs then some 0
  else if wordStartsWith "tue".data cs then some 1
  else if wordStartsWith "wed".data cs then some 2
  else if wordStartsWith "thu".data cs then some 3
  else if wordStartsWith "fri".data cs then some 4
  else if wordStartsWith "sat".data cs then some 5
  else if wordStartsWith "sun".data cs then some 6
  else none

/-- `nlp.parse_date_phrase` over the day-number date model: `base` is
`today_date()`.  `(idx - base.weekday()) % 7` is computed as
`(idx + 7 - base % 7) % 7` (equal for `idx, base % 7 < 7`, avoiding signed
arithmetic). -/
def parse_date_phrase (text : String) (base : Nat) : Option Nat :=
  if text = "" then none
  else
    let lowered := pyStrip (pyLower text)
    if pyIn lowered "today" then some base
    else if pyIn lowered "tomorrow" then some (base + 1)
    else
      match weekdayMatch lowered.data with
      | some idx =>
          let delta := (idx + 7 - base % 7) % 7
          some (base + (if delta = 0 then 7 else delta))
      | none => none

/-! ### Fuzzy slot matching (`nlp.fuzzy_pick_time`) -/

/-- Tail of `re.search(r"\d\s*(?:a|p)\s*m", ...)` after the digit. -/
def ampmAfterDigit (cs : List Char) : Bool :=
  match cs.dropWhile isWs with
  | c :: r =>
      (c = 'a' || c = 'p') &&
      (match r.dropWhile isWs with
       | 'm' :: _ => true
       | _ => false)
  | [] => false

/-- `has_ampm`: `re.search(r"\d\s*(?:a|p)\s*m", ampm_check)` succeeds. -/
def hasAmpm : List Char → Bool
  | [] => false
  | c :: rest => (c.isDigit && ampmAfterDigit rest) || hasAmpm rest

/-- Consume `\s*(?:a|p)\s*m` (each `\s*` greedy; the following literal is not
whitespace, so no backtracking arises), returning the rest. -/
def matchApM (cs : List Char) : Option (List Char) :=
  match cs.dropWhile isWs with
  | c :: r =>
      if c = 'a' || c = 'p' then
        match r.dropWhile isWs with
        | 'm' :: rest => some rest
        | _ => none
      else none
  | [] => none

/-- `re.sub(r"(?<=\d)\s*(?:a|p)\s*m", "", s)`: scan left to right with the
previous original char at hand for the lookbehind; on a match resume after it
(the char before the resume point is the matched `m`).  The fuel starts at
the list length; every step consumes at least one char, so it never runs
out. -/
def subAmpmGo : Nat → Option Char → List Char → List Char
  | 0, _, cs => cs
  | fuel + 1, prev, cs =>
      match cs with
      | [] => []
      | c :: rest =>
          if (prev.map Char.isDigit).getD false then
            match matchApM cs with
            | some rem => subAmpmGo fuel (some 'm') rem
            | none => c :: subAmpmGo fuel (some c) rest
          else c :: subAmpmGo fuel (some c) rest

/-- The am/pm-stripping substitution of `fuzzy_pick_time`. -/
def subAmpm (cs : List Char) : List Char := subAmpmGo cs.length none cs

/-- `re.sub(r"(?<=\d)(?=[a-z])", " ", s)`: insert a space between a digit and
a following lowercase letter. -/
def insDigitAlpha : List Char → List Char
  | c1 :: c2 :: rest =>
      if c1.isDigit && isLowerAlpha c2 then c1 :: ' ' :: insDigitAlpha (c2 :: rest)
      else c1 :: insDigitAlpha (c2 :: rest)
  | l => l

/-- `re.sub(r"(?<=[a-z])(?=\d)", " ", s)`: insert a space between a lowercase
letter and a following digit. -/
def insAlphaDigit : List Char → List Char
  | c1 :: c2 :: rest =>
      if isLowerAlpha c1 && c2.isDigit then c1 :: ' ' :: insAlphaDigit (c2 :: rest)
      else c1 :: insAlphaDigit (c2 :: rest)
  | l => l

/-- The minute string of `try_candidates`: the zero-padded int value of the
minute group, or `"00"` when absent.  The group is a digit string by
construction, so Python's `int()` cannot fail. -/
def baseMinutes (minute : Option (List Char)) : String :=
  ((minute.map (fun m => pad2 (digitsToNat m))).getD "00")

/-- The ordered, deduplicated `candidates` hours of `try_candidates`: the
as-stated hour `raw_hour % 24` first, then its 12-hour-shifted complement.
Both already lie in `[0, 24)`, so the source's range filter only
deduplicates. -/
def hourCandidates (raw_hour : Nat) : List Nat :=
  if raw_hour % 12 + 12 = raw_hour % 24 then [raw_hour % 24]
  else [raw_hour % 24, raw_hour % 12 + 12]

/-- The inner candidate loop `try_candidates(raw_hour, minute, allow_half_hour)`
of `fuzzy_pick_time`, closed over `avail_set`: the first candidate hour whose
`HH:MM` string is available wins; with no explicit minutes and the half-hour
variant allowed, the `HH:30` candidates are tried after the `HH:00` ones. -/
def try_candidates (avail : List String) (raw_hour : Nat) (minute : Option (List Char))
    (allow_half_hour : Bool) : Option String :=
  match (hourCandidates raw_hour).find?
      (fun ch => avail.contains (pad2 ch ++ ":" ++ baseMinutes minute)) with
  | some ch => some (pad2 ch ++ ":" ++ baseMinutes minute)
  | none =>
      if minute.isNone && allow_half_hour then
        match (hourCandidates raw_hour).find?
            (fun ch => avail.contains (pad2 ch ++ ":30")) with
        | some ch => some (pad2 ch ++ ":30")
        | none => none
      else none

/-- Tail `\s*[:]\s*(\d{1,2})` of the colon pattern (minute group greedy). -/
def colonTail (h : Nat) (cs : List Char) : Option (Nat × List Char × List Char) :=
  match cs.dropWhile isWs with
  | ':' :: r =>
      match r.dropWhile isWs with
      | m1 :: r2 =>
          if m1.isDigit then
            match r2 with
            | m2 :: r3 => if m2.isDigit then some (h, [m1, m2], r3) else some (h, [m1], r2)
            | [] => some (h, [m1], [])
          else none
      | [] => none
  | _ => none

/-- Match `(\d{1,2})\s*[:]\s*(\d{1,2})` at this position (two-digit hour
tried first). -/
def matchColonAt (cs : List Char) : Option (Nat × List Char × List Char) :=
  match cs with
  | d1 :: rest1 =>
      if d1.isDigit then
        (match rest1 with
         | d2 :: rest2 => if d2.isDigit then colonTail (digitsToNat [d1, d2]) rest2 else none
         | [] => none) <|>
        colonTail (digitsToNat [d1]) rest1
      else none
  | [] => none

/-- `re.finditer` for the colon pattern: non-overlapping matches in order. -/
def colonAll : Nat → List Char → List (Nat × List Char)
  | 0, _ => []
  | _, [] => []
  | fuel + 1, cs@(_ :: rest) =>
      match matchColonAt cs with
      | some (h, m, rem) => (h, m) :: colonAll fuel rem
      | none => colonAll fuel rest

/-- Tail `\s+(\d{2})\b` of the space pattern. -/
def spaceTail (h : Nat) (cs : List Char) : Option (Nat × List Char × List Char) :=
  if (cs.takeWhile isWs).isEmpty then none
  else
    match cs.dropWhile isWs with
    | m1 :: m2 :: r =>
        if m1.isDigit && m2.isDigit && isBoundary (some m2) r.head? then some (h, [m1, m2], r)
        else none
    | _ => none

/-- Match `(\d{1,2})\s+(\d{2})\b` at this position (two-digit hour first). -/
def matchSpaceAt (cs : List Char) : Option (Nat × List Char × List Char) :=
  match cs with
  | d1 :: rest1 =>
      if d1.isDigit then
        (match rest1 with
         | d2 :: rest2 => if d2.isDigit then spaceTail (digitsToNat [d1, d2]) rest2 else none
         | [] => none) <|>
        spaceTail (digitsToNat [d1]) rest1
      else none
  | [] => none

/-- `re.finditer` for the space pattern. -/
def spaceAll : Nat → List Char → List (Nat × List Char)
  | 0, _ => []
  | _, [] => []
  | fuel + 1, cs@(_ :: rest) =>
      match matchSpaceAt cs with
      | some (h, m, rem) => (h, m) :: spaceAll fuel rem
      | none => spaceAll fuel rest

/-- `re.finditer(r"\b(\d{3,4})\b", ...)`: four digits tried before three (a
failed trailing `\b` after the fourth digit also dooms the three-digit
alternative, whose trailing `\b` would sit between two digits). -/
def contigAll : Nat → Option Char → List Char → List (List Char)
  | 0, _, _ => []
  | _, _, [] => []
  | fuel + 1, prev, cs@(c :: rest) =>
      let attempt : Option (List Char × List Char) :=
        if isBoundary prev (some c) then
          (match cs with
           | a :: b :: d :: e :: r =>
               if a.isDigit && b.isDigit && d.isDigit && e.isDigit &&
                  isBoundary (some e) r.head? then some ([a, b, d, e], r)
               else none
           | _ => none) <|>
          (match cs with
           | a :: b :: d :: r =>
               if a.isDigit && b.isDigit && d.isDigit && isBoundary (some d) r.head? then
                 some ([a, b, d], r)
               else none
           | _ => none)
        else none
      match attempt with
      | some (g, rem) => g :: contigAll fuel (some (g.getLastD c)) rem
      | none => contigAll fuel (some c) rest

/-- `re.finditer(r"\b(\d{1,2})\b", ...)`: standalone hour digits. -/
def aloneAll : Nat → Option Char → List Char → List Nat
  | 0, _, _ => []
  | _, _, [] => []
  | fuel + 1, prev, c :: rest =>
      if isBoundary prev (some c) && c.isDigit then
        match rest with
        | d2 :: r2 =>
            if d2.isDigit && isBoundary (some d2) r2.head? then
              digitsToNat [c, d2] :: aloneAll fuel (some d2) r2
            else if !isWordC d2 then digitsToNat [c] :: aloneAll fuel (some c) rest
            else aloneAll fuel (some c) rest
        | [] => [digitsToNat [c]]
      else aloneAll fuel (some c) rest

/-- Colon phase of `fuzzy_pick_time`: the last `(\d{1,2})\s*[:]\s*(\d{1,2})`
match, fed to the candidate loop. -/
def phase_colon (avail : List String) (sanitized : List Char) : Option String :=
  ((colonAll sanitized.length sanitized).getLast?).bind
    (fun hm => try_candidates avail hm.1 (some hm.2) false)

/-- Space phase: the last `(\d{1,2})\s+(\d{2})\b` match. -/
def phase_space (avail : List String) (sanitized : List Char) : Option String :=
  ((spaceAll sanitized.length sanitized).getLast?).bind
    (fun hm => try_candidates avail hm.1 (some hm.2) false)

/-- Contiguous-digit phase: `\b(\d{3,4})\b` matches scanned in reverse, each
split as `int(digits[:-2])` hours and `digits[-2:]` minutes, first success
wins. -/
def phase_contig (avail : List String) (sanitized : List Char) : Option String :=
  (contigAll sanitized.length none sanitized).reverse.findSome?
    (fun g =>
      try_candidates avail (digitsToNat (g.dropLast.dropLast))
        (some (g.drop (g.length - 2))) false)

/-- Bare-hour phase: `\b(\d{1,2})\b` matches scanned in reverse, the
half-hour variant allowed only without an explicit am/pm marker. -/
def phase_alone (avail : List String) (sanitized : List Char) (has_ampm : Bool) :
    Option String :=
  (aloneAll sanitized.length none sanitized).reverse.findSome?
    (fun h => try_candidates avail h none (!has_ampm))

/-- `nlp.fuzzy_pick_time(user_text, available_hhmm)`: direct normalized
match, then the colon / space / contiguous-digit / bare-hour phases; each
phase that finds no available candidate falls through to the next, exactly
the source's guarded returns. -/
def fuzzy_pick_time (user_text : String) (available_hhmm : List String) : Option String :=
  if user_text = "" then none
  else if available_hhmm.isEmpty then none
  else
    let ampm_check : List Char := (pyLower user_text).data.filter (fun c => c ≠ '.')
    let has_ampm := hasAmpm ampm_check
    let direct : Option String :=
      match normalize_time user_text with
      | some n => if available_hhmm.contains n then some n else none
      | none => none
    match direct with
    | some n => some n
    | none =>
      let sanitized := insAlphaDigit (insDigitAlpha (subAmpm ampm_check))
      phase_colon available_hhmm sanitized <|>
      phase_space available_hhmm sanitized <|>
      phase_contig available_hhmm sanitized <|>
      phase_alone available_hhmm sanitized has_ampm

/-- The `_SERVICE_SYNONYMS` table of `nlp.py` in dict insertion order. -/
def SERVICE_SYNONYMS : List (String × List String) :=
  [("checkup", ["check up", "check-up", "checkup", "exam", "examination",
                "see the dentist", "quick look"]),
   ("hygiene", ["hygiene", "clean", "cleaning", "scale", "scale and polish",
                "polish", "deep clean"]),
   ("whitening", ["whiten", "whitening", "teeth whitening", "bleaching"]),
   ("extraction", ["extract", "extraction", "tooth out", "pull a tooth",
                   "tooth removal", "remove a tooth", "pull my tooth"])]

/-- `nlp.infer_service`: first canonical service one of whose variants is a
substring of the lowered text. -/
def infer_service (text : String) : Option String :=
  let lowered := pyLower text
  SERVICE_SYNONYMS.findSome?
    (fun p => if p.2.any (fun v => pyIn lowered v) then some p.1 else none)

/-! ## app/intent.py — the Intent Classifier -/

/-- The right-single-quote char replaced by `_normalize` and `_any_fuzzy`. -/
def rsquo : Char := Char.ofNat 8217

/-- The ASCII apostrophe char. -/
def apos : Char := Char.ofNat 39

/-- Replace every right single quote with an ASCII apostrophe. -/
def replaceRsquo (s : String) : String :=
  ⟨s.data.map (fun c => if c = rsquo then apos else c)⟩

/-- Modelled from the spec: `app.nlp.normalise_text` is imported by
`app/intent.py` but absent from the source tree; §4.2 says the classifier
"normalizes punctuation/case", and the punctuation part is done by the
substitutions inside `_normalize` itself, so the missing shared normaliser is
modelled as case normalisation with surrounding-whitespace strip. -/
def normalise_text (text : String) : String := pyStrip (pyLower text)

/-- `re.sub(r"\s+", " ", s)`: collapse every whitespace run to one space. -/
def collapseWs : List Char → Bool → List Char
  | [], _ => []
  | c :: r, prevWs =>
      if isWs c then (if prevWs then collapseWs r true else ' ' :: collapseWs r true)
      else c :: collapseWs r false

/-- `intent._normalize`: shared normalisation, quote unification, replacement
of every char outside `[a-z0-9\s]` by a space, whitespace collapse, strip. -/
def _normalize (text : String) : String :=
  let text := normalise_text text
  let text := replaceRsquo text
  let kept : List Char :=
    text.data.map (fun c => if isLowerAlpha c || c.isDigit || isWs c then c else ' ')
  pyStrip ⟨collapseWs kept false⟩

/-- Inner loop of `_lev`: one row update of the levenshtein DP.  `diag` is
`old[j-1]`, `olds` the old values from index `j` on, `left` the freshly
written `dp[j-1]`. -/
def levRowGo (ca : Char) : List Char → Nat → List Nat → Nat → List Nat
  | cb :: bs, diag, oldj :: rest, left =>
      let v := min (min (oldj + 1) (left + 1)) (diag + (if ca = cb then 0 else 1))
      v :: levRowGo ca bs oldj rest v
  | _, _, _, _ => []

/-- One iteration of the outer `for i, ca in enumerate(a, 1)` loop. -/
def levRow (ca : Char) (i : Nat) (old : List Nat) (b : List Char) : List Nat :=
  match old with
  | o0 :: rest => i :: levRowGo ca b o0 rest i
  | [] => []

/-- The outer DP loop of `_lev`. -/
def levFold (b : List Char) : List Char → Nat → List Nat → List Nat
  | [], _, dp => dp
  | ca :: ra, i, dp => levFold b ra (i + 1) (levRow ca i dp b)

/-- `intent._lev(a, b, limit)`: bounded edit distance with the early returns
for equality and for a length gap beyond the limit. -/
def _lev (a b : List Char) (limit : Nat) : Nat :=
  if a = b then 0
  else if ((a.length : Int) - (b.length : Int)).natAbs > limit then limit + 1
  else (levFold b a 1 (List.range (b.length + 1))).getLastD 0

/-- `intent._any_fuzzy(text, vocab, max_dist)`: multi-word keywords by
substring, single-word keywords by token membership or bounded edit
distance.  A multi-word keyword that is not a substring moves to the next
keyword (the source `continue`), never to the token tests. -/
def _any_fuzzy (text : String) (vocab : List String) (max_dist : Nat) : Bool :=
  let tokens := pySplit text
  vocab.any (fun raw =>
    let keyword := pyStrip (pyLower (replaceRsquo raw))
    if keyword = "" then false
    else if keyword.data.contains ' ' then pyIn text keyword
    else if tokens.contains keyword then true
    else tokens.any (fun token => _lev token.data keyword.data max_dist ≤ max_dist))

/-- `HOURS_KEYWORDS` (set literal; only membership is used). -/
def HOURS_KEYWORDS : List String :=
  ["hour", "hours", "opening", "opening hours", "opening time", "open hours",
   "open", "openin", "closing", "closing time", "closing hours", "clozing"]

/-- `AVAILABILITY_KEYWORDS`. -/
def AVAILABILITY_KEYWORDS : List String :=
  ["availability", "available", "what do you have", "what have you got",
   "what times", "times are available", "free slots", "free time",
   "free appointment", "open slots", "any slots", "any availability",
   "what time u have", "what time you have", "book time", "any time",
   "anytime", "any time works", "anytime works", "any time tomorrow",
   "any time ok", "today", "tomorrow", "monday", "tuesday", "wednesday",
   "thursday", "thur", "wednsday", "thurzday", "friday", "saturday", "saturdy"]

/-- `ADDRESS_KEYWORDS`. -/
def ADDRESS_KEYWORDS : List String :=
  ["address", "addres", "where", "postcode", "post code", "located",
   "location", "directions", "direcsion", "find"]

/-- `PRICE_KEYWORDS`. -/
def PRICE_KEYWORDS : List String :=
  ["price", "prices", "prize", "prise", "cost", "how much", "fee", "fees",
   "charges", "pricing"]

/-- `QUOTE_KEYWORDS`. -/
def QUOTE_KEYWORDS : List String :=
  ["quote", "how much", "price up", "rough price"]

/-- `BOOKING_KEYWORDS`. -/
def BOOKING_KEYWORDS : List String :=
  ["book", "booking", "appointment", "apointment", "appoinment", "schedule",
   "make booking", "slot", "slots", "slot in", "get me in",
   "can you fit me in", "reserve", "visit", "buk", "buking", "buk appointment"]

/-- `GARAGE_INTENT_KEYWORDS` in dict insertion order. -/
def GARAGE_INTENT_KEYWORDS : List (String × List String) :=
  [("mot_info", ["mot", "m o t"]),
   ("service_info", ["service", "servicing", "full service", "interim service"]),
   ("tyre_info", ["tyre", "tyres", "tire", "tires", "puncture", "wheel"]),
   ("diagnostics_info", ["diagnostic", "diagnostics", "engine light", "fault code", "obd"]),
   ("oil_info", ["oil change", "oil and filter", "oil & filter"]),
   ("brake_info", ["brake", "brakes", "pads", "discs"]),
   ("recovery", ["breakdown", "towing", "tow truck", "recovery"])]

/-- `GOODBYE_KEYWORDS` (apostrophes written as `\x27`). -/
def GOODBYE_KEYWORDS : List String :=
  ["bye", "bye bye", "bye-bye", "goodbye", "that\x27s all", "thats all",
   "that is all", "that\x27s it", "thats it", "that is it", "that s all",
   "that s it", "nothing else", "no more", "finish", "we\x27re good",
   "were good", "no thanks", "no thank you"]

/-- `AFFIRM_KEYWORDS`. -/
def AFFIRM_KEYWORDS : List String :=
  ["yes", "yeah", "yep", "sure", "please", "ok", "okay", "alright", "sounds good"]

/-- The `explicit_booking` substring probes inside `classify`. -/
def EXPLICIT_BOOKING_WORDS : List String :=
  ["book", "booking", "appointment", "schedule", "reserve", "make booking"]

/-- `intent.classify`: the priority cascade over the fuzzy keyword matches.
`infer_service` is applied to the raw speech, everything else to the
normalised text, as in the source. -/
def classify (speech : String) : Option String :=
  if speech = "" then none
  else
    let text := _normalize speech
    if text = "" then none
    else if _any_fuzzy text GOODBYE_KEYWORDS 1 then some "goodbye"
    else
      let price_intent := _any_fuzzy text PRICE_KEYWORDS 1
      let quote_intent := _any_fuzzy text QUOTE_KEYWORDS 1
      let booking_intent := _any_fuzzy text BOOKING_KEYWORDS 1
      let availability_intent := _any_fuzzy text AVAILABILITY_KEYWORDS 2
      let address_intent := _any_fuzzy text ADDRESS_KEYWORDS 2
      let hours_intent := _any_fuzzy text HOURS_KEYWORDS 1
      let affirm_intent := _any_fuzzy text AFFIRM_KEYWORDS 1
      let service := infer_service speech
      let explicit_booking := EXPLICIT_BOOKING_WORDS.any (fun k => pyIn text k)
      let garage_hint := GARAGE_INTENT_KEYWORDS.any (fun p => _any_fuzzy text p.2 1)
      if quote_intent && !booking_intent then
        if !garage_hint then some "prices" else some "quote"
      else if price_intent && !booking_intent then some "prices"
      else if booking_intent && !availability_intent then some "booking"
      else if booking_intent && availability_intent && (explicit_booking || service.isSome) then
        some "booking"
      else if address_intent then some "address"
      else if availability_intent then some "availability"
      else if hours_intent then some "hours"
      else
        match GARAGE_INTENT_KEYWORDS.findSome?
            (fun p => if _any_fuzzy text p.2 1 then some p.1 else none) with
        | some nm => some nm
        | none =>
            if price_intent then some "prices"
            else if affirm_intent then some "affirm"
            else if service.isSome then some "booking"
            else none

/-! ## app/persistence.py — transcripts and call records

`_TRANSCRIPTS` is an insertion-ordered dict from call sid to line list,
modelled as an association list.  `save_transcript` always creates a fresh
file (its index is one past the largest existing index), so the file system
is modelled as the list of written transcript-file contents in creation
order; `calls.jsonl` and `bookings.csv` are append-only and modelled by the
list of appended call sids. -/

/-- The transcript dict `_TRANSCRIPTS`. -/
abbrev MemT := List (String × List String)

/-- Dict lookup. -/
def lookupMem (mem : MemT) (k : String) : Option (List String) :=
  ((mem : List (String × List String)).find? (fun p => p.1 == k)).map (fun p => p.2)

/-- Dict assignment `mem[k] = v` (in place if present, appended if new). -/
def setMem (mem : MemT) (k : String) (v : List String) : MemT :=
  if (mem : List (String × List String)).any (fun p => p.1 == k) then
    (mem : List (String × List String)).map (fun p => if p.1 == k then (k, v) else p)
  else (mem : List (String × List String)) ++ [(k, v)]

/-- `mem.pop(k, [])`: the stored value (or `[]`) and the dict without `k`. -/
def popMem (mem : MemT) (k : String) : List String × MemT :=
  ((lookupMem mem k).getD [],
   (mem : List (String × List String)).filter (fun p => p.1 != k))

/-- `persistence.transcript_init`: pop any existing entry, then store a fresh
empty list for the call (the source clears and re-inserts the same list
object; the net dict effect is an empty entry inserted last). -/
def transcript_init (mem : MemT) (call_sid : String) : MemT :=
  ((mem : List (String × List String)).filter (fun p => p.1 != call_sid)) ++ [(call_sid, [])]

/-- Python `str.title` restricted to ASCII: uppercase a letter that follows a
non-letter, lowercase the other letters. -/
def pyTitleGo : Bool → List Char → List Char
  | _, [] => []
  | prevAlpha, c :: r =>
      if c.isAlpha then (if prevAlpha then c.toLower else c.toUpper) :: pyTitleGo true r
      else c :: pyTitleGo false r

/-- Python `str.title`. -/
def pyTitle (s : String) : String := ⟨pyTitleGo false s.data⟩

/-- The role cleanup of `transcript_add`: strip, default to `Agent`, and
title-case the two known roles. -/
def cleanRoleOf (role : String) : String :=
  let r0 := pyStrip role
  let r0 := if r0 = "" then "Agent" else r0
  if pyLower r0 = "agent" || pyLower r0 = "caller" then pyTitle r0 else r0

/-- The text of a stored transcript line as read back by the duplicate check:
everything after the first `]` when one exists, else the whole line, both
stripped. -/
def lastTextOf (last_entry : String) : String :=
  if last_entry.data.contains ']' then
    match splitFirst ']' last_entry.data with
    | some (_, after) => pyStrip ⟨after⟩
    | none => pyStrip last_entry
  else pyStrip last_entry

/-- The duplicate test of `transcript_add`: an Agent entry whose cleaned
text equals, case-insensitively, the text of the last stored line. -/
def isDupAgentLine (clean_role : String) (lines : List String) (cleaned : String) : Bool :=
  clean_role = "Agent" && !lines.isEmpty &&
    pyLower (lastTextOf (lines.getLast?.getD "")) = pyLower cleaned

/-- `persistence.transcript_add(call_sid, role, text)` acting on the
transcript dict.  Empty stripped sid or text is a no-op; `setdefault`
inserts an empty entry before the duplicate check; a consecutive
case-insensitive duplicate Agent line is dropped; otherwise the formatted
`[Role] text` entry is appended. -/
def transcript_add (mem : MemT) (call_sid role text : String) : MemT :=
  let cleaned := pyStrip text
  let sid := pyStrip call_sid
  if sid = "" then mem
  else if cleaned = "" then mem
  else
    let clean_role := cleanRoleOf role
    let entry := "[" ++ clean_role ++ "] " ++ cleaned
    let lines := (lookupMem mem sid).getD []
    let mem1 := if (lookupMem mem sid).isSome then mem else setMem mem sid []
    if isDupAgentLine clean_role lines cleaned then mem1
    else setMem mem1 sid (lines ++ [entry])

/-! ## main.py `/status` — call completion (Call Lifecycle Handler) -/

/-- The fields of a `_call_states` entry that `status_callback` reads.  The
other fields (metadata, stage flags, prompts) do not influence which files
and records are written. -/
structure StoredCall where
  transcript : List String
  intent : Option String
  requested_time : Option String
  booking_logged : Bool
deriving Repr, DecidableEq

/-- `_initial_state` restricted to the fields above (its `transcript` is the
fresh empty list shared with `_TRANSCRIPTS`). -/
def initialStored : StoredCall :=
  { transcript := [], intent := none, requested_time := none, booking_logged := false }

/-- The whole process state touched by `/status`: the call-state map, the
transcript dict, the transcript files written so far (contents, in creation
order — `save_transcript` always picks a fresh index), and the call sids of
the records appended to `calls.jsonl` and `bookings.csv`. -/
structure SysState where
  call_states : List (String × StoredCall)
  transcripts_mem : MemT
  files : List (List String)
  call_records : List String
  bookings : List String
deriving Repr, DecidableEq

/-- `main.status_callback`: on a `completed` status, rebuild a fresh initial
state when the call is unknown (which re-runs `transcript_init`), pop the
in-memory transcript (falling back to the state's buffer), write a
transcript file, append a booking line for an unlogged booking, append the
call-summary record, and drop the call state.  Any other status only logs.
The metadata merge of `_get_state` is not modelled (no output reads it). -/
def status_callback (sys : SysState) (call_sid call_status : String) : SysState :=
  if call_sid = "" then sys
  else if pyLower call_status ≠ "completed" then sys
  else
    let stOpt := (sys.call_states.find? (fun p => p.1 == call_sid)).map (fun p => p.2)
    let stm : StoredCall × MemT :=
      match stOpt with
      | some st => (st, sys.transcripts_mem)
      | none => (initialStored, transcript_init sys.transcripts_mem call_sid)
    let pm := popMem stm.2 call_sid
    let lines := if pm.1.isEmpty then stm.1.transcript else pm.1
    { call_states := sys.call_states.filter (fun p => p.1 != call_sid),
      transcripts_mem := pm.2,
      files := sys.files ++ [lines],
      call_records := sys.call_records ++ [call_sid],
      bookings :=
        if stm.1.intent = some "booking" && stm.1.requested_time.isSome &&
            !stm.1.booking_logged then
          sys.bookings ++ [call_sid]
        else sys.bookings }

/-! ## main.py dialogue turn endpoints (`/voice`, `/gather-intent`,
`/gather-booking`)

Only the structure the temporal claims depend on is modelled: the guard that
short-circuits a completed call to a bare hangup, the silence dispatch, and
the goodbye transition.  The spoken prompt text (randomised acknowledgement
and filler decoration, time formatting) is abstracted to a tag naming which
prompt the source builds, and the transcript logging and metadata merge are
elided — neither affects which directive kind is returned nor the stage
fields.  The per-utterance dispatch on classified intents is taken as an
arbitrary `content` function parameter: every theorem below holds for any
such function, hence for the source's dispatch. -/

/-- The `stage` values stored in call state. -/
inductive Stage
  | intent | follow_up | booking_type | booking_date | booking_time
  | booking_name | booking_confirm | completed
deriving DecidableEq, Repr

/-- The call-state fields the guards, silence handling and goodbye
transition read and write. -/
structure CallState where
  stage : Stage
  ending : Bool
  greeted : Bool
  silence_count : Nat
  retries : Nat
deriving DecidableEq, Repr

/-- Which prompt the source builds for a gather response. -/
inductive PromptTag
  | opening | clarify | anythingElse | bookingTypeRe | bookingDateRe
  | bookingTimeRe | bookingNameRe | bookingConfirmRe
deriving DecidableEq, Repr

/-- The TwiML shapes a turn can return: a speech gather with its action URL
and prompt, a terminal goodbye (Say + Pause + Hangup), or the bare
`_hangup_only_response` with no Say and no Gather. -/
inductive Directive
  | gather (action : String) (prompt : PromptTag)
  | goodbye
  | hangupOnly
deriving DecidableEq, Repr

/-- `main._respond_with_goodbye`: mark the call completed/ending and return
the goodbye directive (the rotating goodbye text is not modelled). -/
def _respond_with_goodbye (st : CallState) : Directive × CallState :=
  (Directive.goodbye, { st with stage := Stage.completed, ending := true })

/-- `main._handle_silence`: bump both counters, reprompt while the bumped
silence count is at most `max(max_silence_reprompts, 1)`, else say
goodbye. -/
def _handle_silence (maxSilence : Nat) (reprompt : PromptTag) (action : String)
    (st : CallState) : Directive × CallState :=
  if st.silence_count + 1 ≤ max maxSilence 1 then
    (Directive.gather action reprompt,
     { st with silence_count := st.silence_count + 1, retries := st.retries + 1 })
  else
    _respond_with_goodbye
      { st with silence_count := st.silence_count + 1, retries := st.retries + 1 }

/-- `main.voice_webhook` after call-state fetch: completed guard, first-turn
greeting, else a clarify gather. -/
def voice_webhook (st : CallState) : Directive × CallState :=
  if st.ending || st.stage = Stage.completed then (Directive.hangupOnly, st)
  else if !st.greeted then
    (Directive.gather "/gather-intent" PromptTag.opening,
     { st with greeted := true, stage := Stage.intent, silence_count := 0, retries := 0 })
  else (Directive.gather "/gather-intent" PromptTag.clarify, st)

/-- `main.gather_intent_route`: completed guard, silence dispatch, else the
utterance dispatch `content` (which starts from a zeroed silence counter, as
in the source). -/
def gather_intent (maxSilence : Nat)
    (content : CallState → String → Directive × CallState)
    (st : CallState) (speech : String) : Directive × CallState :=
  if st.ending || st.stage = Stage.completed then (Directive.hangupOnly, st)
  else if pyStrip speech = "" then
    _handle_silence maxSilence
      (if st.stage = Stage.intent then PromptTag.clarify else PromptTag.anythingElse)
      "/gather-intent" st
  else content { st with silence_count := 0 } speech

/-- The per-stage silence reprompt and action of `gather_booking_route`: the
booking stages each reprompt on the booking endpoint with their own prompt;
the fallback reprompts with the clarify prompt on the intent endpoint, as in
the source. -/
def silenceReprompt : Stage → PromptTag × String
  | Stage.booking_type => (PromptTag.bookingTypeRe, "/gather-booking")
  | Stage.booking_date => (PromptTag.bookingDateRe, "/gather-booking")
  | Stage.booking_name => (PromptTag.bookingNameRe, "/gather-booking")
  | Stage.booking_time => (PromptTag.bookingTimeRe, "/gather-booking")
  | Stage.booking_confirm => (PromptTag.bookingConfirmRe, "/gather-booking")
  | _ => (PromptTag.clarify, "/gather-intent")

/-- `main.gather_booking_route`: completed guard, per-stage silence dispatch,
else the utterance dispatch. -/
def gather_booking (maxSilence : Nat)
    (content : CallState → String → Directive × CallState)
    (st : CallState) (speech : String) : Directive × CallState :=
  if st.ending || st.stage = Stage.completed then (Directive.hangupOnly, st)
  else if pyStrip speech = "" then
    _handle_silence maxSilence (silenceReprompt st.stage).1 (silenceReprompt st.stage).2 st
  else content { st with silence_count := 0 } speech

/-- The three gateway turn endpoints for one call. -/
inductive Endpoint
  | voice | gatherIntent | gatherBooking
deriving DecidableEq, Repr

/-- Dispatch one gateway event for the call to its endpoint handler. -/
def handle_event (maxSilence : Nat)
    (contentI contentB : CallState → String → Directive × CallState) :
    Endpoint → CallState → String → Directive × CallState
  | Endpoint.voice, st, _ => voice_webhook st
  | Endpoint.gatherIntent, st, speech => gather_intent maxSilence contentI st speech
  | Endpoint.gatherBooking, st, speech => gather_booking maxSilence contentB st speech

/-- Run a sequence of turn events for one call, collecting the directives. -/
def run_events (maxSilence : Nat)
    (contentI contentB : CallState → String → Directive × CallState) :
    CallState → List (Endpoint × String) → List Directive × CallState
  | st, [] => ([], st)
  | st, ev :: rest =>
      let r := handle_event maxSilence contentI contentB ev.1 st ev.2
      let rr := run_events maxSilence contentI contentB r.2 rest
      (r.1 :: rr.1, rr.2)

/-! ## Theorems for the claims -/

/-- Clock value of an `HH:MM` string (digits read as a number), used to state
ascending-time order; on zero-padded `HH:MM` strings this order coincides
with lexicographic and with clock order. -/
def hhmmVal (s : String) : Nat := digitsToNat (s.data.filter Char.isDigit)

/-- C2: the reserve contract.  `reserve_slot` returns `false` and leaves the
stored table unchanged when no row matches `(date, start_time)` or when the
first matching row's status is not Available; otherwise it returns `true`
and the persisted table books every matching row with the supplied name and
type; and no row's status ever reverts from Booked (the only status value
ever written is `"Booked"`), the two query operations being read-only by
construction. -/
theorem C2_reserve_contract (df : List SlotRow) (d t n ty : String) :
    (df.find? (slotMatches d t) = none → reserve_slot df d t n ty = (false, df)) ∧
    (∀ r, df.find? (slotMatches d t) = some r → r.status ≠ "Available" →
      reserve_slot df d t n ty = (false, df)) ∧
    (∀ r, df.find? (slotMatches d t) = some r → r.status = "Available" →
      reserve_slot df d t n ty =
        (true, df.map (fun row =>
          if slotMatches d t row then bookRow n ty row else row))) ∧
    (∀ i : Nat, (df[i]?.map SlotRow.status) = some "Booked" →
      ((reserve_slot df d t n ty).2[i]?.map SlotRow.status) = some "Booked") := by
  refine ⟨?_, ?_, ?_, ?_⟩
  · intro h
    simp [reserve_slot, h]
  · intro r hr hs
    simp [reserve_slot, hr, hs]
  · intro r hr hs
    simp [reserve_slot, hr, hs]
  · intro i hi
    rcases hf : df.find? (slotMatches d t) with _ | r
    · simpa [reserve_slot, hf] using hi
    · by_cases hs : r.status = "Available"
      · rcases hg : df[i]? with _ | row
        · rw [hg] at hi
          simp at hi
        · rw [hg] at hi
          have hrow : row.status = "Booked" := by simpa using hi
          have hres : (reserve_slot df d t n ty).2 =
              df.map (fun row =>
                if slotMatches d t row then bookRow n ty row else row) := by
            simp [reserve_slot, hf, hs]
          rw [hres, List.getElem?_map, hg]
          by_cases hm : slotMatches d t row
          · simp [hm, bookRow]
          · simp [hm, hrow]
      · simpa [reserve_slot, hf, hs] using hi

/-- Concrete instantiation of the reserve contract: a matching Available row
is booked, a matching Booked row fails and leaves the table unchanged, and
an empty table fails. -/
def wRowAvail : SlotRow :=
  ⟨"2025-01-06", "Monday", "09:00", "09:30", "Available", "", "", ""⟩

/-- The same slot already booked. -/
def wRowBooked : SlotRow :=
  ⟨"2025-01-06", "Monday", "09:00", "09:30", "Booked", "Sam", "Hygiene", ""⟩

/-- Witness for C2 at the two concrete tables. -/
theorem C2_reserve_contract_witness :
    reserve_slot [wRowAvail] "2025-01-06" "09:00" "Ann" "Check-up" =
      (true, [wRowAvail].map (fun row =>
        if slotMatches "2025-01-06" "09:00" row then bookRow "Ann" "Check-up" row else row)) ∧
    reserve_slot [wRowBooked] "2025-01-06" "09:00" "Ann" "Check-up" = (false, [wRowBooked]) ∧
    reserve_slot [] "2025-01-06" "09:00" "Ann" "Check-up" = (false, []) :=
  ⟨(C2_reserve_contract [wRowAvail] "2025-01-06" "09:00" "Ann" "Check-up").2.2.1
      wRowAvail (by decide) (by decide),
   (C2_reserve_contract [wRowBooked] "2025-01-06" "09:00" "Ann" "Check-up").2.1
      wRowBooked (by decide) (by decide),
   (C2_reserve_contract [] "2025-01-06" "09:00" "Ann" "Check-up").1 (by decide)⟩

/-- Stored table whose two Available rows carry descending start times. -/
def exSched : List SlotRow :=
  [⟨"2025-01-06", "Monday", "10:00", "10:30", "Available", "", "", ""⟩,
   ⟨"2025-01-06", "Monday", "09:00", "09:30", "Available", "", "", ""⟩]

/-- C3 counterexample: `list_available` does not sort; on a stored table with
start times `10:00, 09:00` it returns them in stored order, which is not
ascending. -/
theorem C3_counterexample :
    (list_available exSched none 5).map SlotRow.start_time = ["10:00", "09:00"] ∧
    ¬ List.Pairwise (fun a b => hhmmVal a ≤ hhmmVal b)
        ((list_available exSched none 5).map SlotRow.start_time) := by
  constructor
  · rfl
  · decide

/-- `list_available` is the limit-truncation of the filter pipeline: the two
`empty` early returns of the source change nothing. -/
theorem list_available_eq_take (df : List SlotRow) (date : Option String) (limit : Nat) :
    list_available df date limit = (availRows df date).take limit := by
  unfold list_available
  by_cases h1 : df.isEmpty
  · rw [if_pos h1, List.isEmpty_iff.mp h1]
    cases date <;> simp [availRows]
  · rw [if_neg h1]
    by_cases h2 : (availRows df date).isEmpty
    · rw [if_pos h2, List.isEmpty_iff.mp h2]
      simp
    · rw [if_neg h2]

/-- C3 as amended: every returned row has status Available and matches the
supplied date filter, at most `limit` rows are returned, the rows appear in
stored-table order (the result is a sublist of the stored table — the
source never sorts), and the result is the empty list (never an error; the
function is total) when no row matches. -/
theorem C3_list_available_amended (df : List SlotRow) (date : Option String) (limit : Nat) :
    (∀ r ∈ list_available df date limit, r.status = "Available") ∧
    (∀ d, date = some d → ∀ r ∈ list_available df date limit, r.date = d) ∧
    (list_available df date limit).length ≤ limit ∧
    (list_available df date limit).Sublist df ∧
    ((∀ r ∈ df, ¬(r.status = "Available" ∧ (date = none ∨ date = some r.date))) →
      list_available df date limit = []) := by
  rw [list_available_eq_take]
  refine ⟨?_, ?_, ?_, ?_, ?_⟩
  · intro r hr
    have hr1 : r ∈ availRows df date := List.take_subset _ _ hr
    cases date with
    | none =>
        have h2 : r ∈ df ∧ r.status = "Available" := by simpa [availRows] using hr1
        exact h2.2
    | some d =>
        have h2 : r ∈ df ∧ r.date = d ∧ r.status = "Available" := by
          simpa [availRows, and_assoc] using hr1
        exact h2.2.2
  · intro d hd r hr
    subst hd
    have hr1 : r ∈ availRows df (some d) := List.take_subset _ _ hr
    have h2 : r ∈ df ∧ r.date = d ∧ r.status = "Available" := by
      simpa [availRows, and_assoc] using hr1
    exact h2.2.1
  · exact List.length_take_le _ _
  · refine (List.take_sublist _ _).trans ?_
    cases date with
    | none => exact List.filter_sublist _
    | some d => exact (List.filter_sublist _).trans (List.filter_sublist _)
  · intro h
    have hnil : availRows df date = [] := by
      cases date with
      | none =>
          refine List.filter_eq_nil_iff.mpr ?_
          intro r hr
          have hnr := h r hr
          intro hc
          exact hnr ⟨by simpa using hc, Or.inl rfl⟩
      | some d =>
          refine List.filter_eq_nil_iff.mpr ?_
          intro r hr
          have hr1 := List.mem_filter.mp hr
          have hnr := h r hr1.1
          intro hc
          have hd : r.date = d := by simpa using hc
          exact hnr ⟨by simpa using hr1.2, Or.inr (by rw [hd])⟩
    rw [hnil]
    simp

/-- A successful `weekdayMatch` index names one of the seven weekdays. -/
theorem weekdayMatch_lt {cs : List Char} {idx : Nat}
    (h : weekdayMatch cs = some idx) : idx < 7 := by
  unfold weekdayMatch at h
  split_ifs at h <;> injection h with h <;> omega

/-- C7: day-phrase resolution.  A phrase containing "today" resolves to the
current date and one containing "tomorrow" (but not "today") to the next
date; otherwise a phrase matching a weekday-name pattern resolves to the
unique date in the next seven days whose weekday is the named one — strictly
in the future, exactly 7 days ahead when the named weekday is the current
date's own, and no earlier future date has that weekday; and a phrase
matching none of these yields `none`.  Dates are day numbers with weekday
`n % 7`, Monday = 0. -/
theorem C7_parse_date_phrase (base : Nat) (text : String) :
    (text ≠ "" → pyIn (pyStrip (pyLower text)) "today" = true →
      parse_date_phrase text base = some base) ∧
    (text ≠ "" → pyIn (pyStrip (pyLower text)) "today" = false →
      pyIn (pyStrip (pyLower text)) "tomorrow" = true →
      parse_date_phrase text base = some (base + 1)) ∧
    (∀ idx : Nat, text ≠ "" → pyIn (pyStrip (pyLower text)) "today" = false →
      pyIn (pyStrip (pyLower text)) "tomorrow" = false →
      weekdayMatch (pyStrip (pyLower text)).data = some idx →
      ∃ delta, parse_date_phrase text base = some (base + delta) ∧
        1 ≤ delta ∧ delta ≤ 7 ∧ (base + delta) % 7 = idx ∧
        (base % 7 = idx → delta = 7) ∧
        (∀ k, 1 ≤ k → k < delta → (base + k) % 7 ≠ idx)) ∧
    ((text = "" ∨ (pyIn (pyStrip (pyLower text)) "today" = false ∧
        pyIn (pyStrip (pyLower text)) "tomorrow" = false ∧
        weekdayMatch (pyStrip (pyLower text)).data = none)) →
      parse_date_phrase text base = none) := by
  refine ⟨?_, ?_, ?_, ?_⟩
  · intro hne htoday
    simp [parse_date_phrase, hne, htoday]
  · intro hne htoday htm
    simp [parse_date_phrase, hne, htoday, htm]
  · intro idx hne htoday htm hwk
    have hlt : idx < 7 := weekdayMatch_lt hwk
    have hres : parse_date_phrase text base =
        some (base + (if (idx + 7 - base % 7) % 7 = 0 then 7
                      else (idx + 7 - base % 7) % 7)) := by
      simp [parse_date_phrase, hne, htoday, htm, hwk]
    by_cases hz : (idx + 7 - base % 7) % 7 = 0
    · rw [hz] at hres
      refine ⟨7, by simpa using hres, by omega, by omega, by omega, by omega, ?_⟩
      intro k hk1 hk2
      omega
    · rw [if_neg hz] at hres
      refine ⟨(idx + 7 - base % 7) % 7, hres, by omega, by omega, by omega,
        by omega, ?_⟩
      intro k hk1 hk2
      omega
  · intro h
    rcases h with h | ⟨htoday, htm, hwk⟩
    · simp [parse_date_phrase, h]
    · by_cases hne : text = ""
      · simp [parse_date_phrase, hne]
      · simp [parse_date_phrase, hne, htoday, htm, hwk]

/-- Witness for C7: with the current date a Thursday (day 3), "today
please" resolves to day 3, "tomorrow" to day 4, "next friday" to the next
future Friday, and "gibberish" to nothing. -/
theorem C7_parse_date_phrase_witness :
    parse_date_phrase "today please" 3 = some 3 ∧
    parse_date_phrase "tomorrow" 3 = some 4 ∧
    (∃ delta, parse_date_phrase "next friday" 3 = some (3 + delta) ∧
      1 ≤ delta ∧ delta ≤ 7 ∧ (3 + delta) % 7 = 4 ∧
      (3 % 7 = 4 → delta = 7) ∧
      (∀ k, 1 ≤ k → k < delta → (3 + k) % 7 ≠ 4)) ∧
    parse_date_phrase "gibberish" 3 = none :=
  ⟨(C7_parse_date_phrase 3 "today please").1 (by decide) (by decide),
   (C7_parse_date_phrase 3 "tomorrow").2.1 (by decide) (by decide) (by decide),
   (C7_parse_date_phrase 3 "next friday").2.2.1 4 (by decide) (by decide)
     (by decide) (by decide),
   (C7_parse_date_phrase 3 "gibberish").2.2.2
     (Or.inr ⟨by decide, by decide, by decide⟩)⟩

/-- C9: the pm round trip.  For every hour `1 ≤ H ≤ 11`, `normalize_time`
maps the phrase `"H pm"` to the 24-hour string `"(H+12):00"` and
`hhmm_to_12h` maps that back to `"Hpm"`, the same clock time. -/
theorem C9_time_round_trip (h : Nat) (h1 : 1 ≤ h) (h2 : h ≤ 11) :
    normalize_time (Nat.repr h ++ " pm") = some (pad2 (h + 12) ++ ":00") ∧
    hhmm_to_12h (pad2 (h + 12) ++ ":00") = Nat.repr h ++ "pm" := by
  interval_cases h <;> exact ⟨by decide, by decide⟩

/-- Witness for C9 at hour 4: "4 pm" → "16:00" → "4pm". -/
theorem C9_time_round_trip_witness :
    normalize_time (Nat.repr 4 ++ " pm") = some (pad2 (4 + 12) ++ ":00") ∧
    hhmm_to_12h (pad2 (4 + 12) ++ ":00") = Nat.repr 4 ++ "pm" :=
  C9_time_round_trip 4 (by decide) (by decide)

/-- Every string `try_candidates` returns is a member of the available set. -/
theorem try_candidates_mem (avail : List String) (h : Nat) (m : Option (List Char))
    (allow : Bool) (r : String) (hr : try_candidates avail h m allow = some r) :
    avail.contains r = true := by
  unfold try_candidates at hr
  rcases h1 : (hourCandidates h).find?
      (fun ch => avail.contains (pad2 ch ++ ":" ++ baseMinutes m)) with _ | ch
  · rw [h1] at hr
    by_cases h2 : (m.isNone && allow) = true
    · rw [if_pos h2] at hr
      rcases h3 : (hourCandidates h).find? (fun ch => avail.contains (pad2 ch ++ ":30"))
        with _ | ch2
      · rw [h3] at hr
        exact absurd hr (by simp)
      · rw [h3] at hr
        have hp := List.find?_some h3
        have : pad2 ch2 ++ ":30" = r := by injection hr
        rw [← this]
        simpa using hp
    · rw [if_neg h2] at hr
      exact absurd hr (by simp)
  · rw [h1] at hr
    have hp := List.find?_some h1
    have : pad2 ch ++ ":" ++ baseMinutes m = r := by injection hr
    rw [← this]
    simpa using hp

/-- Every member of a `findSome?` result arises from some list element. -/
theorem findSome_mem_contains {α : Type} (avail : List String) (l : List α)
    (f : α → Option String) (r : String)
    (hf : ∀ a b, f a = some b → avail.contains b = true)
    (h : l.findSome? f = some r) : avail.contains r = true := by
  obtain ⟨a, _, ha⟩ := List.exists_of_findSome?_eq_some h
  exact hf a r ha

/-- C8: fuzzy time resolution.  (1) Soundness — whatever `fuzzy_pick_time`
returns is in the available set, so when no tried candidate is available the
result is no match; (2) the candidate loop tries the as-stated hour before
the 12-hour-shifted complement; (3) with no explicit minutes and the
half-hour variant allowed, the `HH:00` candidates are tried before the
`HH:30` ones; (4) the scenario: "430" is split as 4:30 and against
`["09:30","16:30"]` resolves to `"16:30"` (the as-stated hour 04:30 being
unavailable, its shifted complement 16:30 wins); and "430" finds no match
when neither 04:30 nor 16:30 is available. -/
theorem C8_fuzzy_pick_time :
    (∀ (t : String) (avail : List String) (r : String),
      fuzzy_pick_time t avail = some r → avail.contains r = true) ∧
    (∀ (avail : List String) (h : Nat) (m : Option (List Char)) (allow : Bool),
      avail.contains (pad2 (h % 24) ++ ":" ++ baseMinutes m) = true →
      try_candidates avail h m allow = some (pad2 (h % 24) ++ ":" ++ baseMinutes m)) ∧
    (∀ (avail : List String) (h : Nat),
      avail.contains (pad2 (h % 24) ++ ":" ++ baseMinutes none) = false →
      avail.contains (pad2 (h % 12 + 12) ++ ":" ++ baseMinutes none) = false →
      avail.contains (pad2 (h % 24) ++ ":30") = true →
      try_candidates avail h none true = some (pad2 (h % 24) ++ ":30")) ∧
    fuzzy_pick_time "430" ["09:30", "16:30"] = some "16:30" ∧
    fuzzy_pick_time "430" ["09:00", "11:00"] = none := by
  refine ⟨?_, ?_, ?_, by decide, by decide⟩
  · intro t avail r h
    unfold fuzzy_pick_time at h
    by_cases h1 : t = ""
    · rw [if_pos h1] at h
      exact absurd h (by simp)
    · rw [if_neg h1] at h
      by_cases h2 : avail.isEmpty = true
      · rw [if_pos h2] at h
        exact absurd h (by simp)
      · rw [if_neg h2] at h
        simp only [] at h
        rcases h3 : normalize_time t with _ | n
        · rw [h3] at h
          simp only [] at h
          rcases (Option.orElse_eq_some _ _ _).mp h with hc | ⟨_, hrest⟩
          · unfold phase_colon at hc
            obtain ⟨hm, _, hmm⟩ := Option.bind_eq_some.mp hc
            exact try_candidates_mem _ _ _ _ _ hmm
          · rcases (Option.orElse_eq_some _ _ _).mp hrest with hc | ⟨_, hrest2⟩
            · unfold phase_space at hc
              obtain ⟨hm, _, hmm⟩ := Option.bind_eq_some.mp hc
              exact try_candidates_mem _ _ _ _ _ hmm
            · rcases (Option.orElse_eq_some _ _ _).mp hrest2 with hc | ⟨_, hrest3⟩
              · unfold phase_contig at hc
                exact findSome_mem_contains avail _ _ r
                  (fun a b hb => try_candidates_mem _ _ _ _ _ hb) hc
              · unfold phase_alone at hrest3
                exact findSome_mem_contains avail _ _ r
                  (fun a b hb => try_candidates_mem _ _ _ _ _ hb) hrest3
        · rw [h3] at h
          by_cases h4 : avail.contains n = true
          · simp only [h4, if_pos] at h
            have : n = r := by injection h
            rw [← this]
            exact h4
          · simp only [if_neg h4] at h
            rcases (Option.orElse_eq_some _ _ _).mp h with hc | ⟨_, hrest⟩
            · unfold phase_colon at hc
              obtain ⟨hm, _, hmm⟩ := Option.bind_eq_some.mp hc
              exact try_candidates_mem _ _ _ _ _ hmm
            · rcases (Option.orElse_eq_some _ _ _).mp hrest with hc | ⟨_, hrest2⟩
              · unfold phase_space at hc
                obtain ⟨hm, _, hmm⟩ := Option.bind_eq_some.mp hc
                exact try_candidates_mem _ _ _ _ _ hmm
              · rcases (Option.orElse_eq_some _ _ _).mp hrest2 with hc | ⟨_, hrest3⟩
                · unfold phase_contig at hc
                  exact findSome_mem_contains avail _ _ r
                    (fun a b hb => try_candidates_mem _ _ _ _ _ hb) hc
                · unfold phase_alone at hrest3
                  exact findSome_mem_contains avail _ _ r
                    (fun a b hb => try_candidates_mem _ _ _ _ _ hb) hrest3
  · intro avail h m allow hc
    unfold try_candidates hourCandidates
    by_cases he : h % 12 + 12 = h % 24
    · rw [if_pos he]
      have hf : List.find? (fun ch => avail.contains (pad2 ch ++ ":" ++ baseMinutes m))
          [h % 24] = some (h % 24) := List.find?_cons_of_pos _ (by simpa using hc)
      rw [hf]
    · rw [if_neg he]
      have hf : List.find? (fun ch => avail.contains (pad2 ch ++ ":" ++ baseMinutes m))
          [h % 24, h % 12 + 12] = some (h % 24) :=
        List.find?_cons_of_pos _ (by simpa using hc)
      rw [hf]
  · intro avail h h00 h1200 h30
    unfold try_candidates hourCandidates
    by_cases he : h % 12 + 12 = h % 24
    · rw [if_pos he]
      have hn : List.find?
          (fun ch => avail.contains (pad2 ch ++ ":" ++ baseMinutes none)) [h % 24] = none := by
        rw [List.find?_cons_of_neg _ (by simpa using h00), List.find?_nil]
      have hf : List.find? (fun ch => avail.contains (pad2 ch ++ ":30"))
          [h % 24] = some (h % 24) := List.find?_cons_of_pos _ (by simpa using h30)
      rw [hn, hf]
      rfl
    · rw [if_neg he]
      have hn : List.find?
          (fun ch => avail.contains (pad2 ch ++ ":" ++ baseMinutes none))
          [h % 24, h % 12 + 12] = none := by
        rw [List.find?_cons_of_neg _ (by simpa using h00),
          List.find?_cons_of_neg _ (by simpa using h1200), List.find?_nil]
      have hf : List.find? (fun ch => avail.contains (pad2 ch ++ ":30"))
          [h % 24, h % 12 + 12] = some (h % 24) :=
        List.find?_cons_of_pos _ (by simpa using h30)
      rw [hn, hf]
      rfl

/-- Witness for C8 applying the quantified parts at concrete inputs: the
soundness part at the scenario call, the as-stated-hour part at hour 9 with
minutes "30", and the half-hour part at hour 4. -/
theorem C8_fuzzy_pick_time_witness :
    (["09:30"] : List String).contains "09:30" = true ∧
    try_candidates ["09:30"] 9 (some ['3', '0']) false = some "09:30" ∧
    try_candidates ["16:30"] 4 none true = some "16:30" := by
  refine ⟨by decide, ?_, ?_⟩
  · have hth := C8_fuzzy_pick_time.2.1 ["09:30"] 9 (some ['3', '0']) false (by decide)
    simpa using hth
  · have hth := C8_fuzzy_pick_time.2.2.1 ["16:30"] 16 (by decide) (by decide) (by decide)
    simpa [baseMinutes] using hth

/-- When no keyword set of a garage-intent table matches, the intent scan of
the table yields nothing. -/
theorem findSome?_of_any_false {l : List (String × List String)} {t : String}
    (h : l.any (fun p => _any_fuzzy t p.2 1) = false) :
    l.findSome? (fun p => if _any_fuzzy t p.2 1 then some p.1 else none) = none := by
  induction l with
  | nil => rfl
  | cons a l ih =>
      have h1 : _any_fuzzy t a.2 1 = false ∧ l.any (fun p => _any_fuzzy t p.2 1) = false := by
        simpa using h
      simp [List.findSome?_cons, h1.1, ih h1.2]

/-- C5: the classifier's priority resolution.  A fuzzy goodbye match wins
outright; a quote phrase without booking words yields `prices` when no
service-repair (garage) keyword is present; an utterance whose only signal
is a named service yields `booking`; and an utterance matching no
vocabulary at all yields `none` rather than an error. -/
theorem C5_classify_priority :
    (∀ s : String, _normalize s ≠ "" →
      _any_fuzzy (_normalize s) GOODBYE_KEYWORDS 1 = true →
      classify s = some "goodbye") ∧
    (∀ s : String, _normalize s ≠ "" →
      _any_fuzzy (_normalize s) GOODBYE_KEYWORDS 1 = false →
      _any_fuzzy (_normalize s) QUOTE_KEYWORDS 1 = true →
      _any_fuzzy (_normalize s) BOOKING_KEYWORDS 1 = false →
      GARAGE_INTENT_KEYWORDS.any (fun p => _any_fuzzy (_normalize s) p.2 1) = false →
      classify s = some "prices") ∧
    (∀ s : String, _normalize s ≠ "" →
      (infer_service s).isSome = true →
      _any_fuzzy (_normalize s) GOODBYE_KEYWORDS 1 = false →
      _any_fuzzy (_normalize s) PRICE_KEYWORDS 1 = false →
      _any_fuzzy (_normalize s) QUOTE_KEYWORDS 1 = false →
      _any_fuzzy (_normalize s) BOOKING_KEYWORDS 1 = false →
      _any_fuzzy (_normalize s) AVAILABILITY_KEYWORDS 2 = false →
      _any_fuzzy (_normalize s) ADDRESS_KEYWORDS 2 = false →
      _any_fuzzy (_normalize s) HOURS_KEYWORDS 1 = false →
      GARAGE_INTENT_KEYWORDS.any (fun p => _any_fuzzy (_normalize s) p.2 1) = false →
      _any_fuzzy (_normalize s) AFFIRM_KEYWORDS 1 = false →
      classify s = some "booking") ∧
    (∀ s : String,
      infer_service s = none →
      _any_fuzzy (_normalize s) GOODBYE_KEYWORDS 1 = false →
      _any_fuzzy (_normalize s) PRICE_KEYWORDS 1 = false →
      _any_fuzzy (_normalize s) QUOTE_KEYWORDS 1 = false →
      _any_fuzzy (_normalize s) BOOKING_KEYWORDS 1 = false →
      _any_fuzzy (_normalize s) AVAILABILITY_KEYWORDS 2 = false →
      _any_fuzzy (_normalize s) ADDRESS_KEYWORDS 2 = false →
      _any_fuzzy (_normalize s) HOURS_KEYWORDS 1 = false →
      GARAGE_INTENT_KEYWORDS.any (fun p => _any_fuzzy (_normalize s) p.2 1) = false →
      _any_fuzzy (_normalize s) AFFIRM_KEYWORDS 1 = false →
      classify s = none) := by
  refine ⟨?_, ?_, ?_, ?_⟩
  · intro s hne hgb
    have hs : s ≠ "" := fun e => hne (by rw [e]; rfl)
    simp [classify, hs, hne, hgb]
  · intro s hne hgb hq hb hgar
    have hs : s ≠ "" := fun e => hne (by rw [e]; rfl)
    simp [classify, hs, hne, hgb, hq, hb, hgar]
  · intro s hne hsvc hgb hp hq hb hav had hh hgar haf
    have hs : s ≠ "" := fun e => hne (by rw [e]; rfl)
    have hg2 := findSome?_of_any_false hgar
    simp [classify, hs, hne, hsvc, hgb, hp, hq, hb, hav, had, hh, hg2, haf]
  · intro s hsvc hgb hp hq hb hav had hh hgar haf
    by_cases hs : s = ""
    · simp [classify, hs]
    · by_cases hne : _normalize s = ""
      · simp [classify, hs, hne]
      · have hg2 := findSome?_of_any_false hgar
        simp [classify, hs, hne, hsvc, hgb, hp, hq, hb, hav, had, hh, hg2, haf]

/-- Witness for C5 at concrete utterances: "bye" is a goodbye, "rough price"
routes to prices, the bare service name "whitening" defaults to booking, and
"zzz qqq" matches nothing. -/
theorem C5_classify_priority_witness :
    classify "bye" = some "goodbye" ∧
    classify "rough price" = some "prices" ∧
    classify "whitening" = some "booking" ∧
    classify "zzz qqq" = none :=
  ⟨C5_classify_priority.1 "bye" (by decide) (by decide),
   C5_classify_priority.2.1 "rough price" (by decide) (by decide) (by decide)
     (by decide) (by decide),
   C5_classify_priority.2.2.1 "whitening" (by decide) (by decide) (by decide)
     (by decide) (by decide) (by decide) (by decide) (by decide) (by decide)
     (by decide) (by decide),
   C5_classify_priority.2.2.2 "zzz qqq" (by decide) (by decide) (by decide)
     (by decide) (by decide) (by decide) (by decide) (by decide) (by decide)
     (by decide)⟩

/-- C10: `transcript_add`.  An empty stripped call id or text is a no-op; a
consecutive duplicate is exactly an Agent entry whose stripped text equals,
ignoring case, the text of the most recently stored line, and such an entry
leaves the stored transcript unchanged; any other entry for an existing
call is appended at the end as `[Role] text`; an entry for a fresh call id
creates its buffer (the `setdefault`) and appends the line. -/
theorem C10_transcript_add (mem : MemT) (call_sid role text : String) :
    (pyStrip call_sid = "" → transcript_add mem call_sid role text = mem) ∧
    (pyStrip text = "" → transcript_add mem call_sid role text = mem) ∧
    (∀ cr lines cl, isDupAgentLine cr lines cl = true ↔
      (cr = "Agent" ∧ lines ≠ [] ∧
        pyLower (lastTextOf (lines.getLast?.getD "")) = pyLower cl)) ∧
    (∀ lines, pyStrip call_sid ≠ "" → pyStrip text ≠ "" →
      lookupMem mem (pyStrip call_sid) = some lines →
      isDupAgentLine (cleanRoleOf role) lines (pyStrip text) = true →
      transcript_add mem call_sid role text = mem) ∧
    (∀ lines, pyStrip call_sid ≠ "" → pyStrip text ≠ "" →
      lookupMem mem (pyStrip call_sid) = some lines →
      isDupAgentLine (cleanRoleOf role) lines (pyStrip text) = false →
      transcript_add mem call_sid role text =
        setMem mem (pyStrip call_sid)
          (lines ++ ["[" ++ cleanRoleOf role ++ "] " ++ pyStrip text])) ∧
    (pyStrip call_sid ≠ "" → pyStrip text ≠ "" →
      lookupMem mem (pyStrip call_sid) = none →
      transcript_add mem call_sid role text =
        setMem (setMem mem (pyStrip call_sid) []) (pyStrip call_sid)
          ["[" ++ cleanRoleOf role ++ "] " ++ pyStrip text]) := by
  refine ⟨?_, ?_, ?_, ?_, ?_, ?_⟩
  · intro h
    simp [transcript_add, h]
  · intro h
    by_cases hs : pyStrip call_sid = ""
    · simp [transcript_add, hs]
    · simp [transcript_add, hs, h]
  · intro cr lines cl
    constructor
    · intro h
      have h1 : (cr = "Agent" ∧ ¬lines = []) ∧
          pyLower (lastTextOf (lines.getLast?.getD "")) = pyLower cl := by
        simpa [isDupAgentLine] using h
      exact ⟨h1.1.1, h1.1.2, h1.2⟩
    · intro h
      simp [isDupAgentLine, h.1, h.2.1, h.2.2]
  · intro lines hs ht hl hd
    simp [transcript_add, hs, ht, hl, hd]
  · intro lines hs ht hl hd
    simp [transcript_add, hs, ht, hl, hd]
  · intro hs ht hl
    have hd : isDupAgentLine (cleanRoleOf role) [] (pyStrip text) = false := by
      simp [isDupAgentLine]
    simp [transcript_add, hs, ht, hl, hd]

/-- Witness for C10: a duplicate Agent line is dropped, a Caller line is
appended, and empty text or id are no-ops, on a concrete buffer. -/
theorem C10_transcript_add_witness :
    transcript_add [("CA1", ["[Agent] Hello"])] "CA1" "Agent" "hello" =
      [("CA1", ["[Agent] Hello"])] ∧
    transcript_add [("CA1", ["[Agent] Hello"])] "CA1" "Caller" "Hello" =
      setMem [("CA1", ["[Agent] Hello"])] "CA1"
        (["[Agent] Hello"] ++ ["[Caller] Hello"]) ∧
    transcript_add [("CA1", ["[Agent] Hello"])] "" "Agent" "x" =
      [("CA1", ["[Agent] Hello"])] ∧
    transcript_add [("CA1", ["[Agent] Hello"])] "CA1" "Agent" "  " =
      [("CA1", ["[Agent] Hello"])] :=
  ⟨(C10_transcript_add [("CA1", ["[Agent] Hello"])] "CA1" "Agent" "hello").2.2.2.1
      ["[Agent] Hello"] (by decide) (by decide) (by decide) (by decide),
   by
    have hth := (C10_transcript_add [("CA1", ["[Agent] Hello"])] "CA1" "Caller" "Hello").2.2.2.2.1
      ["[Agent] Hello"] (by decide) (by decide) (by decide) (by decide)
    simpa using hth,
   (C10_transcript_add [("CA1", ["[Agent] Hello"])] "" "Agent" "x").1 (by decide),
   (C10_transcript_add [("CA1", ["[Agent] Hello"])] "CA1" "Agent" "  ").2.1 (by decide)⟩

/-- Stored table holding only a Booked row. -/
def exBookedSched : List SlotRow :=
  [⟨"2025-01-06", "Monday", "09:00", "09:30", "Booked", "Sam", "Hygiene", ""⟩]

/-- Witness for the amended C3 at concrete tables, including the discharged
no-matching-row hypothesis. -/
theorem C3_list_available_amended_witness :
    (∀ r ∈ list_available exSched none 5, r.status = "Available") ∧
    (list_available exSched none 5).length ≤ 5 ∧
    (list_available exSched none 5).Sublist exSched ∧
    list_available exBookedSched none 5 = [] :=
  ⟨(C3_list_available_amended exSched none 5).1,
   (C3_list_available_amended exSched none 5).2.2.1,
   (C3_list_available_amended exSched none 5).2.2.2.1,
   (C3_list_available_amended exBookedSched none 5).2.2.2.2 (by decide)⟩

/-- Process state after one call `CA1` has run some turns: live call state
and a two-line in-memory transcript, nothing persisted yet. -/
def c1Start : SysState :=
  { call_states := [("CA1", initialStored)],
    transcripts_mem := [("CA1", ["[Agent] Hi", "[Caller] Hello"])],
    files := [], call_records := [], bookings := [] }

/-- C1 (code bug): processing the gateway's `completed` status is not
idempotent.  The first `completed` for `CA1` writes one transcript file and
one summary record and removes the call state; the duplicate delivery then
rebuilds a fresh initial state (`state or _initial_state`), writes a second
— empty — transcript file (`save_transcript` always picks a fresh index)
and appends a second summary record, where the spec requires duplicates to
be no-ops with exactly one file and one record per call. -/
theorem C1_duplicate_completion_reflushes :
    (status_callback c1Start "CA1" "completed").files =
      [["[Agent] Hi", "[Caller] Hello"]] ∧
    (status_callback c1Start "CA1" "completed").call_records = ["CA1"] ∧
    (status_callback (status_callback c1Start "CA1" "completed")
        "CA1" "completed").files =
      [["[Agent] Hi", "[Caller] Hello"], []] ∧
    (status_callback (status_callback c1Start "CA1" "completed")
        "CA1" "completed").call_records = ["CA1", "CA1"] := by
  refine ⟨rfl, rfl, rfl, rfl⟩

/-- C4: once a call is completed (its ending flag set by the goodbye
transition), every subsequent gateway turn event for it — on any of the
voice, intent-gather or booking-gather endpoints, silent or not, and for
any utterance dispatch — returns the bare hangup directive (no Say, no
Gather), and the state stays completed: the call is never reopened into a
prompting state. -/
theorem C4_completed_absorbs (maxSilence : Nat)
    (contentI contentB : CallState → String → Directive × CallState)
    (st : CallState) (events : List (Endpoint × String))
    (h : st.ending = true ∨ st.stage = Stage.completed) :
    (∀ d ∈ (run_events maxSilence contentI contentB st events).1,
      d = Directive.hangupOnly) ∧
    ((run_events maxSilence contentI contentB st events).2.ending = true ∨
      (run_events maxSilence contentI contentB st events).2.stage = Stage.completed) := by
  revert h
  induction events generalizing st with
  | nil =>
      intro h
      exact ⟨by simp [run_events], by simpa [run_events] using h⟩
  | cons ev rest ih =>
      intro h
      have hguard : handle_event maxSilence contentI contentB ev.1 st ev.2 =
          (Directive.hangupOnly, st) := by
        rcases h with h | h <;> cases ev.1 <;>
          simp [handle_event, voice_webhook, gather_intent, gather_booking, h]
      have hrun : run_events maxSilence contentI contentB st (ev :: rest) =
          (Directive.hangupOnly :: (run_events maxSilence contentI contentB st rest).1,
           (run_events maxSilence contentI contentB st rest).2) := by
        simp [run_events, hguard]
      rw [hrun]
      obtain ⟨ih1, ih2⟩ := ih st h
      exact ⟨by simpa using ih1, ih2⟩

/-- An utterance dispatch that immediately hangs up, used to instantiate the
content-handler parameter in closed instances. -/
def hangContent : CallState → String → Directive × CallState :=
  fun st _ => (Directive.hangupOnly, st)

/-- A call state already completed by the goodbye transition. -/
def c4State : CallState :=
  { stage := Stage.completed, ending := true, greeted := true,
    silence_count := 0, retries := 0 }

/-- Witness for C4: a completed call answers a voice turn and a booking
gather turn with bare hangups and stays completed. -/
theorem C4_completed_absorbs_witness :
    (∀ d ∈ (run_events 2 hangContent hangContent c4State
        [(Endpoint.voice, "hello"), (Endpoint.gatherBooking, "book please")]).1,
      d = Directive.hangupOnly) ∧
    ((run_events 2 hangContent hangContent c4State
        [(Endpoint.voice, "hello"), (Endpoint.gatherBooking, "book please")]).2.ending = true ∨
      (run_events 2 hangContent hangContent c4State
        [(Endpoint.voice, "hello"), (Endpoint.gatherBooking, "book please")]).2.stage =
        Stage.completed) :=
  C4_completed_absorbs 2 hangContent hangContent c4State
    [(Endpoint.voice, "hello"), (Endpoint.gatherBooking, "book please")] (Or.inr rfl)

/-- A live call waiting for the booking name with fresh counters. -/
def c6Start : CallState :=
  { stage := Stage.booking_name, ending := false, greeted := true,
    silence_count := 0, retries := 0 }

/-- C6 counterexample: with the silence maximum set to 2, silence on two
consecutive turns in the `booking_name` stage does NOT end the call — the
engine reprompts on both turns (`silence_count ≤ max` still holds at 2) and
the call is still live in `booking_name`; the goodbye only comes when the
count exceeds the maximum. -/
theorem C6_counterexample :
    (run_events 2 hangContent hangContent c6Start
        [(Endpoint.gatherBooking, ""), (Endpoint.gatherBooking, "")]).1 =
      [Directive.gather "/gather-booking" PromptTag.bookingNameRe,
       Directive.gather "/gather-booking" PromptTag.bookingNameRe] ∧
    (run_events 2 hangContent hangContent c6Start
        [(Endpoint.gatherBooking, ""), (Endpoint.gatherBooking, "")]).2.stage =
      Stage.booking_name ∧
    (run_events 2 hangContent hangContent c6Start
        [(Endpoint.gatherBooking, ""), (Endpoint.gatherBooking, "")]).2.ending = false := by
  refine ⟨rfl, rfl, rfl⟩

/-- C6 as amended: for every stage of a live call (a completed call
short-circuits to a hangup instead, see C4), a silent turn increments the
dedicated silence counter (the retry counter is also incremented); while the
incremented count is at most `max(max_silence_reprompts, 1)` the engine
re-issues the stage-appropriate reprompt — on the booking endpoint the
reprompt and action given by `silenceReprompt` for the current stage, on the
intent endpoint the clarify prompt in the `intent` stage and the
anything-else prompt otherwise — and once the count exceeds that maximum it
issues the goodbye directive and completes the call.  So with the maximum
set to 2, silence in `booking_name` on three consecutive turns ends the call
with a goodbye, the first two turns reprompting. -/
theorem C6_silence_handling (maxSilence : Nat)
    (cI cB : CallState → String → Directive × CallState) (st : CallState) :
    (st.ending = false → st.stage ≠ Stage.completed →
      st.silence_count + 1 ≤ max maxSilence 1 →
      gather_booking maxSilence cB st "" =
        (Directive.gather (silenceReprompt st.stage).2 (silenceReprompt st.stage).1,
         { st with silence_count := st.silence_count + 1,
                   retries := st.retries + 1 })) ∧
    (st.ending = false → st.stage ≠ Stage.completed →
      st.silence_count + 1 > max maxSilence 1 →
      gather_booking maxSilence cB st "" =
        (Directive.goodbye,
         { st with silence_count := st.silence_count + 1,
                   retries := st.retries + 1,
                   stage := Stage.completed, ending := true })) ∧
    (st.ending = false → st.stage ≠ Stage.completed →
      st.silence_count + 1 ≤ max maxSilence 1 →
      gather_intent maxSilence cI st "" =
        (Directive.gather "/gather-intent"
          (if st.stage = Stage.intent then PromptTag.clarify else PromptTag.anythingElse),
         { st with silence_count := st.silence_count + 1,
                   retries := st.retries + 1 })) ∧
    (st.ending = false → st.stage ≠ Stage.completed →
      st.silence_count + 1 > max maxSilence 1 →
      gather_intent maxSilence cI st "" =
        (Directive.goodbye,
         { st with silence_count := st.silence_count + 1,
                   retries := st.retries + 1,
                   stage := Stage.completed, ending := true })) ∧
    (run_events 2 cI cB c6Start
        [(Endpoint.gatherBooking, ""), (Endpoint.gatherBooking, ""),
         (Endpoint.gatherBooking, "")]).1 =
      [Directive.gather "/gather-booking" PromptTag.bookingNameRe,
       Directive.gather "/gather-booking" PromptTag.bookingNameRe,
       Directive.goodbye] ∧
    (run_events 2 cI cB c6Start
        [(Endpoint.gatherBooking, ""), (Endpoint.gatherBooking, ""),
         (Endpoint.gatherBooking, "")]).2.stage = Stage.completed := by
  refine ⟨?_, ?_, ?_, ?_, rfl, rfl⟩
  · intro he hstage hcount
    unfold gather_booking
    rw [if_neg (by simp [he, hstage]), if_pos (by decide : pyStrip "" = "")]
    unfold _handle_silence
    rw [if_pos (by simpa using hcount)]
  · intro he hstage hcount
    unfold gather_booking
    rw [if_neg (by simp [he, hstage]), if_pos (by decide : pyStrip "" = "")]
    unfold _handle_silence
    rw [if_neg (by simp only [Nat.not_le]; omega)]
    unfold _respond_with_goodbye
    rfl
  · intro he hstage hcount
    unfold gather_intent
    rw [if_neg (by simp [he, hstage]), if_pos (by decide : pyStrip "" = "")]
    unfold _handle_silence
    rw [if_pos (by simpa using hcount)]
  · intro he hstage hcount
    unfold gather_intent
    rw [if_neg (by simp [he, hstage]), if_pos (by decide : pyStrip "" = "")]
    unfold _handle_silence
    rw [if_neg (by simp only [Nat.not_le]; omega)]
    unfold _respond_with_goodbye
    rfl

/-- Witness for C6: with the default maximum 2, the first silent turn in
`booking_name` reprompts with the booking-name reprompt, a third consecutive
silent turn (count already 2) says goodbye, and a silent turn in the
`follow_up` stage on the intent endpoint reprompts with the anything-else
prompt. -/
theorem C6_silence_handling_witness :
    gather_booking 2 hangContent c6Start "" =
      (Directive.gather "/gather-booking" PromptTag.bookingNameRe,
       { c6Start with silence_count := 1, retries := 1 }) ∧
    gather_booking 2 hangContent
        { c6Start with silence_count := 2, retries := 2 } "" =
      (Directive.goodbye,
       { c6Start with silence_count := 3, retries := 3,
                      stage := Stage.completed, ending := true }) ∧
    gather_intent 2 hangContent { c6Start with stage := Stage.follow_up } "" =
      (Directive.gather "/gather-intent" PromptTag.anythingElse,
       { c6Start with stage := Stage.follow_up, silence_count := 1, retries := 1 }) :=
  ⟨by
    have hth := (C6_silence_handling 2 hangContent hangContent c6Start).1
      rfl (by decide) (by decide)
    simpa [c6Start, silenceReprompt] using hth,
   by
    have hth := (C6_silence_handling 2 hangContent hangContent
      { c6Start with silence_count := 2, retries := 2 }).2.1 rfl (by decide) (by decide)
    simpa using hth,
   by
    have hth := (C6_silence_handling 2 hangContent hangContent
      { c6Start with stage := Stage.follow_up }).2.2.1 rfl (by decide) (by decide)
    simpa [c6Start] using hth⟩

end Bot
